import Mathlib

/-!
Verification of the dprint-vscode workspace service against its source.

The development shallowly embeds the code of `src/utils.ts`, `src/config.ts`
and `src/legacy/WorkspaceService.ts` (the variant carrying the global folder,
found alongside `src/legacy/pluginRegistry.ts`):

* JavaScript strings are embedded as Lean `String`; `String.prototype.startsWith`
  becomes a character-list prefix test (`jsStartsWith`).
* `vscode.Uri` values are embedded as their string form; the code only ever
  consumes them through `toString()` and `fsPath`, both of which are opaque
  strings to the algorithms under study.
* External collaborators (`discoverWorkspaceConfigFiles`, `resolveConfigPath`,
  `ancestorDirsContainConfigFile`, `getDprintConfig`, and the behaviour of the
  spawned `FolderService` processes) are inputs of the algorithms: they appear
  as explicit parameters or as fields of an environment record.
* The asynchronous method `initializeFolders` is embedded as a sequential
  function that additionally returns the ordered trace of lifecycle events
  (folder disposal, construction, initialization) so that temporal claims
  about the order of those effects can be stated.
-/

namespace Dprint

/-- Embedding of JavaScript `s.startsWith(pre)`: `pre` is a character-wise
prefix of `s`. -/
def jsStartsWith (s pre : String) : Bool :=
  pre.data.isPrefixOf s.data

/-- Bridge between the executable prefix test and Mathlib's list-prefix
relation. -/
theorem jsStartsWith_eq_true_iff (s pre : String) :
    jsStartsWith s pre = true ↔ pre.data <+: s.data := by
  unfold jsStartsWith
  exact List.isPrefixOf_iff_prefix

/-! ## `src/utils.ts` -/

/-- From `utils.ts`:
`isUserLevelConfig(configUri, workspaceFolderUris)` returns
`!workspaceFolderUris.some(folderUri => configUri.startsWith(folderUri))`. -/
def isUserLevelConfig (configUri : String) (workspaceFolderUris : List String) : Bool :=
  !(workspaceFolderUris.any fun folderUri => jsStartsWith configUri folderUri)

/-- Environment record passed to `getUserConfigDirectory` in `utils.ts`
(`env : { APPDATA?: string; XDG_CONFIG_HOME?: string }`). `none` models an
absent variable. -/
structure UserConfigEnv where
  appData : Option String
  xdgConfigHome : Option String

/-- From `utils.ts`: `getUserConfigDirectory`.  The two Node path-join
functions (`path.win32.join` / `path.posix.join`) are external collaborators
and are passed in as parameters; the source selects between them on
`platform === "win32"`.  A JavaScript `if (envVar)` truthiness test on a
`string | undefined` is expanded into the `some`/non-empty case split. -/
def getUserConfigDirectory (winJoin posixJoin : List String → String)
    (homedir : String) (platform : String) (env : UserConfigEnv) : String :=
  let join := if platform == "win32" then winJoin else posixJoin
  if platform == "win32" then
    match env.appData with
    | some appData =>
      if appData == "" then join [homedir, "AppData", "Roaming", "dprint"]
      else join [appData, "dprint"]
    | none => join [homedir, "AppData", "Roaming", "dprint"]
  else
    match env.xdgConfigHome with
    | some xdgConfigHome =>
      if xdgConfigHome == "" then join [homedir, ".config", "dprint"]
      else join [xdgConfigHome, "dprint"]
    | none => join [homedir, ".config", "dprint"]

/-! ## `src/config.ts` -/

/-- `DprintExtensionConfigPathInfo` from `config.ts`. -/
structure DprintExtensionConfigPathInfo where
  path : String
  isFromWorkspace : Bool
deriving DecidableEq, Repr

/-- `DprintExtensionConfig` from `config.ts`. -/
structure DprintExtensionConfig where
  pathInfo : Option DprintExtensionConfigPathInfo
  verbose : Bool
  experimentalLsp : Bool
  configPath : Option String
  checkUserLevelConfig : Bool
deriving DecidableEq, Repr

/-- A workspace folder, embedded by its root URI string
(`folder.uri.toString()`). -/
structure WorkspaceFolder where
  uri : String
deriving DecidableEq, Repr

/-- The initial value of `combinedConfig` in `getCombinedDprintConfig`. -/
def emptyCombinedConfig : DprintExtensionConfig :=
  { pathInfo := none
    verbose := false
    experimentalLsp := false
    configPath := none
    checkUserLevelConfig := true }

/-- One iteration of the `for (const folder of folders)` loop body of
`getCombinedDprintConfig`, with `config = getDprintConfig(folder.uri)`. -/
def combineConfigStep (combined config : DprintExtensionConfig) : DprintExtensionConfig :=
  { combined with
    verbose := if config.verbose then true else combined.verbose
    experimentalLsp := if config.experimentalLsp then true else combined.experimentalLsp
    pathInfo :=
      if config.pathInfo.isSome && combined.pathInfo.isNone then config.pathInfo
      else combined.pathInfo
    configPath :=
      if config.configPath.isSome && combined.configPath.isNone then config.configPath
      else combined.configPath
    checkUserLevelConfig :=
      if !config.checkUserLevelConfig then false else combined.checkUserLevelConfig }

/-- From `config.ts`: `getCombinedDprintConfig(folders)`.  The per-scope
lookup `getDprintConfig(folder.uri)` reads the host editor's settings store,
an external collaborator, so it is passed in as `getConfig`. -/
def getCombinedDprintConfig (getConfig : String → DprintExtensionConfig)
    (folders : List WorkspaceFolder) : DprintExtensionConfig :=
  folders.foldl (fun combined folder => combineConfigStep combined (getConfig folder.uri))
    emptyCombinedConfig

/-! ## `src/legacy/WorkspaceService.ts` — data model

A `FolderService` instance is embedded by its constructor arguments: the
workspace folder it is bound to, the config URI it was given, and the
`useConfigDirAsCwd` flag.  The field `workspaceFolderUri` is an `Option`
because the source constructs the global folder with
`vscode.workspace.workspaceFolders[0]`, which is `undefined` when the folder
list is empty. -/
structure FolderService where
  workspaceFolderUri : Option String
  configUri : Option String
  useConfigDirAsCwd : Bool
deriving DecidableEq, Repr

/-- Modelled from the spec: `FolderService.ts` itself is outside the studied
sources; per the spec's data model a `FolderService` exposes the bound
folder's root URI (`rootURI` of its `ResolvedFolderBinding`) as `uri`, and
`#getFolderForUri` reads `folder.uri.fsPath` from it.  A `vscode.Uri` is
embedded as one opaque string, so this accessor returns the stored root
string; the `getD ""` branch is unreachable for folders built by the
per-folder loop, which always stores `some` root. -/
def FolderService.rootFsPath (f : FolderService) : String :=
  f.workspaceFolderUri.getD ""

/-- The mutable state of a `WorkspaceService`: the `#folders` array, the
`#globalFolder` field and the `#disposed` flag. -/
structure WorkspaceState where
  folders : List FolderService
  globalFolder : Option FolderService
  disposed : Bool
deriving DecidableEq, Repr

/-- `ObjectDisposedError` from `utils.ts`, the only error the
`WorkspaceService` methods throw themselves. -/
inductive DprintError where
  | objectDisposed
deriving DecidableEq, Repr

/-- Lifecycle events emitted by `WorkspaceService`: disposal of a previously
bound `FolderService` (`folder.dispose()` inside `#clearFolders`),
construction of a new one (`new FolderService(...)`), and initialization
(`f.initialize()`). -/
inductive InitEvent where
  | disposeFolder (f : FolderService)
  | createFolder (f : FolderService)
  | initFolder (f : FolderService)
deriving DecidableEq, Repr

def InitEvent.isDispose : InitEvent → Bool
  | .disposeFolder _ => true
  | _ => false

def InitEvent.isCreateOrInit : InitEvent → Bool
  | .createFolder _ => true
  | .initFolder _ => true
  | _ => false

/-! ## `#getFolderForUri` and `provideDocumentFormattingEdits` -/

/-- Loop body of `#getFolderForUri`:

```
if (uri.fsPath.startsWith(folder.uri.fsPath)) {
  if (bestMatch == null || folder.uri.fsPath.startsWith(bestMatch.uri.fsPath)) {
    bestMatch = folder;
  }
}
``` -/
def pickBestMatch (docFsPath : String) (best : Option FolderService)
    (folder : FolderService) : Option FolderService :=
  if jsStartsWith docFsPath folder.rootFsPath then
    match best with
    | none => some folder
    | some b =>
      if jsStartsWith folder.rootFsPath b.rootFsPath then some folder else some b
  else best

/-- The `bestMatch` computed by the `for` loop of `#getFolderForUri` over
`this.#folders`. -/
def bestMatchFolder (folders : List FolderService) (docFsPath : String) :
    Option FolderService :=
  folders.foldl (pickBestMatch docFsPath) none

/-- `#getFolderForUri`: the loop result, falling back to the global folder
(`bestMatch ?? this.#globalFolder`). -/
def getFolderForUri (folders : List FolderService) (globalFolder : Option FolderService)
    (docFsPath : String) : Option FolderService :=
  match bestMatchFolder folders docFsPath with
  | some f => some f
  | none => globalFolder

/-- `provideDocumentFormattingEdits` resolves the folder for the document and
forwards to it (`folder?.provideDocumentFormattingEdits(...)`); with no folder
it resolves to `undefined` ("no formatter").  The method performs no disposed
check, which the `Except` result type makes observable: it never produces
`DprintError.objectDisposed`. -/
def provideDocumentFormattingEdits (s : WorkspaceState) (docFsPath : String) :
    Except DprintError (Option FolderService) :=
  .ok (getFolderForUri s.folders s.globalFolder docFsPath)

/-- `getEditorServicePid`: first non-null pid among `#folders`, then the
global folder (`this.#globalFolder?.getEditorServicePid()`).  The pid of one
`FolderService` comes from its spawned process, an external collaborator,
passed in as `pidOf`.  No disposed check is performed. -/
def getEditorServicePid (pidOf : FolderService → Option Nat) (s : WorkspaceState) :
    Except DprintError (Option Nat) :=
  .ok (match s.folders.findSome? pidOf with
       | some pid => some pid
       | none =>
         match s.globalFolder with
         | some g => pidOf g
         | none => none)

/-! ## `#clearFolders`, `dispose` -/

/-- The disposal events emitted by `#clearFolders`: every member of
`#folders` in order, then the global folder if present. -/
def clearFoldersEvents (s : WorkspaceState) : List InitEvent :=
  s.folders.map InitEvent.disposeFolder ++
    (match s.globalFolder with
     | some g => [InitEvent.disposeFolder g]
     | none => [])

/-- `dispose()`: runs `#clearFolders()` (emptying `#folders` and clearing
`#globalFolder`, disposing each) and sets `#disposed = true`.  Returns the new
state together with the emitted disposal events. -/
def disposeService (s : WorkspaceState) : WorkspaceState × List InitEvent :=
  (⟨[], none, true⟩, clearFoldersEvents s)

/-! ## `initializeFolders` -/

/-- Inputs of one `initializeFolders` run.  Each field stands for one
external collaborator read by the method:

* `workspaceFolders` — `vscode.workspace.workspaceFolders` (`none` = `null`);
* `resolvedConfigPath` — the composition of `getDprintConfig(folder.uri).configPath`
  and `resolveConfigPath` (the per-folder `folderConfigPathMap` entry;
  `none` when the setting is absent or unresolved);
* `configFiles` — the result of `discoverWorkspaceConfigFiles` (URI strings);
* `ancestorDirsContainConfigFile` — the predicate of the same name from
  `configFile.ts`, applied to a folder root URI;
* `initializeOk` — whether `f.initialize()` resolves to `true`;
* `editorInfo` — `f.getEditorInfo()` (`none` = `undefined`), the info string
  being opaque here. -/
structure InitEnv where
  workspaceFolders : Option (List WorkspaceFolder)
  resolvedConfigPath : String → Option String
  configFiles : List String
  ancestorDirsContainConfigFile : String → Bool
  initializeOk : FolderService → Bool
  editorInfo : FolderService → Option String

/-- Embedding of JavaScript `text.endsWith("/")` for the one-character
suffix: the last character is a slash.  (`String.endsWith` itself is avoided
because its byte-level implementation does not reduce inside the kernel.) -/
def jsEndsWithSlash (text : String) : Bool :=
  match text.data.getLast? with
  | some c => c == '/'
  | none => false

/-- `standarizeUri` (spelling from the source) inside `areDirectoryUrisEqual`:
append a trailing slash when missing. -/
def standarizeUri (text : String) : String :=
  if jsEndsWithSlash text then text else text ++ "/"

/-- `areDirectoryUrisEqual` from `WorkspaceService.ts`. -/
def areDirectoryUrisEqual (a b : String) : Bool :=
  standarizeUri a == standarizeUri b

/-- The repeated guard
`this.#folders.some(f => areDirectoryUrisEqual(f.uri, folder.uri))`, with
`f.uri` read as in `FolderService.rootFsPath` (the bound root URI; loop-built
folders always carry `some`). -/
def folderUriAlreadyAdded (folders : List FolderService) (folderUri : String) : Bool :=
  folders.any fun f =>
    match f.workspaceFolderUri with
    | some u => areDirectoryUrisEqual u folderUri
    | none => false

/-- Body of the `for (const folder of vscode.workspace.workspaceFolders)`
loop of `initializeFolders`, acting on the accumulated `#folders` list:

1. with a truthy `explicitConfigPath` from the map, push exactly one
   `FolderService` bound to it and `continue`;
2. otherwise push one `FolderService` per discovered config whose URI starts
   with the folder's URI;
3. otherwise fall back to the first user-level config, or to a config-less
   binding when an ancestor directory holds a config file. -/
def processWorkspaceFolder (env : InitEnv) (userLevelConfigs : List String)
    (acc : List FolderService) (folder : WorkspaceFolder) : List FolderService :=
  match env.resolvedConfigPath folder.uri with
  | some explicitConfigPath =>
    acc ++ [{ workspaceFolderUri := some folder.uri
              configUri := some explicitConfigPath
              useConfigDirAsCwd := false }]
  | none =>
    let subConfigUris := env.configFiles.filter fun c => jsStartsWith c folder.uri
    let acc := acc ++ subConfigUris.map fun c =>
      ({ workspaceFolderUri := some folder.uri
         configUri := some c
         useConfigDirAsCwd := false } : FolderService)
    if decide (userLevelConfigs.length > 0) && !folderUriAlreadyAdded acc folder.uri then
      acc ++ [{ workspaceFolderUri := some folder.uri
                configUri := userLevelConfigs.head?
                useConfigDirAsCwd := false }]
    else if !folderUriAlreadyAdded acc folder.uri
        && env.ancestorDirsContainConfigFile folder.uri then
      acc ++ [{ workspaceFolderUri := some folder.uri
                configUri := none
                useConfigDirAsCwd := false }]
    else acc

/-- Result of one `initializeFolders` run: the state left behind, the ordered
trace of lifecycle events, and the returned `FolderInfos` (pairs of the
surviving folder's `uri` and its editor info). -/
structure InitResult where
  state : WorkspaceState
  events : List InitEvent
  folderInfos : List (Option String × String)
deriving DecidableEq, Repr

/-- `initializeFolders`, embedded sequentially.  Faithful to the source's
order of effects:

1. `#assertNotDisposed()`;
2. `#clearFolders()` — the previous generation is disposed here, first;
3. early return `[]` when `workspaceFolders == null`;
4. classify discovered configs into user-level ones against all roots;
5. the per-folder loop, pushing new `FolderService` instances;
6. the global folder, when a user-level config exists, anchored at
   `workspaceFolders[0]` with the first user-level config and
   `useConfigDirAsCwd: true`;
7. `initialize()` of every new instance (a `Promise.all`, linearized here in
   list order; only the dispose/create/init phase ordering is relied upon);
8. the second `#assertNotDisposed()`, which in this sequential embedding
   re-checks the unchanged flag;
9. collect `FolderInfos` of instances that initialized successfully and
   report an editor info. -/
def initializeFolders (env : InitEnv) (s : WorkspaceState) :
    Except DprintError InitResult :=
  if s.disposed then .error .objectDisposed
  else
    let disposeEvts := clearFoldersEvents s
    match env.workspaceFolders with
    | none =>
      .ok { state := ⟨[], none, s.disposed⟩, events := disposeEvts, folderInfos := [] }
    | some workspaceFolders =>
      let allWorkspaceFolderUris := workspaceFolders.map (·.uri)
      let userLevelConfigs :=
        env.configFiles.filter fun c => isUserLevelConfig c allWorkspaceFolderUris
      let newFolders := workspaceFolders.foldl (processWorkspaceFolder env userLevelConfigs) []
      let globalFolder : Option FolderService :=
        match userLevelConfigs with
        | u0 :: _ =>
          some { workspaceFolderUri := workspaceFolders.head?.map (·.uri)
                 configUri := some u0
                 useConfigDirAsCwd := true }
        | [] => none
      let foldersToInit :=
        match globalFolder with
        | some g => newFolders ++ [g]
        | none => newFolders
      let createEvts := foldersToInit.map InitEvent.createFolder
      let initEvts := foldersToInit.map InitEvent.initFolder
      if s.disposed then .error .objectDisposed
      else
        let folderInfos := foldersToInit.foldl (fun infos f =>
          if env.initializeOk f then
            match env.editorInfo f with
            | some info => infos ++ [(f.workspaceFolderUri, info)]
            | none => infos
          else infos) []
        .ok { state := ⟨newFolders, globalFolder, s.disposed⟩
              events := disposeEvts ++ createEvts ++ initEvts
              folderInfos := folderInfos }

/-- Index positions of the events satisfying `p` in a trace. -/
def eventPositions (p : InitEvent → Bool) (tr : List InitEvent) : List Nat :=
  (tr.enum.filter fun x => p x.2).map Prod.fst

/-- The ordering property claimed by the spec's atomic-swap rule: every
disposal of a previous-generation instance sits after every construction and
initialization of a new one. -/
def disposalsAfterNewGeneration (tr : List InitEvent) : Bool :=
  (eventPositions InitEvent.isDispose tr).all fun i =>
    (eventPositions InitEvent.isCreateOrInit tr).all fun j => j < i

/-! # Supporting lemmas -/

/-- Folding `combineConfigStep` computes each field independently:
`verbose` accumulates by disjunction. -/
theorem foldl_combine_verbose (getConfig : String → DprintExtensionConfig)
    (folders : List WorkspaceFolder) (acc : DprintExtensionConfig) :
    (folders.foldl (fun combined folder => combineConfigStep combined (getConfig folder.uri)) acc).verbose
      = (acc.verbose || folders.any fun f => (getConfig f.uri).verbose) := by
  induction folders generalizing acc with
  | nil => simp
  | cons f fs ih =>
    simp only [List.foldl_cons, List.any_cons, ih]
    cases h : (getConfig f.uri).verbose <;>
      simp [combineConfigStep, h, Bool.or_assoc, Bool.or_comm]

/-- `experimentalLsp` accumulates by disjunction. -/
theorem foldl_combine_experimentalLsp (getConfig : String → DprintExtensionConfig)
    (folders : List WorkspaceFolder) (acc : DprintExtensionConfig) :
    (folders.foldl (fun combined folder => combineConfigStep combined (getConfig folder.uri)) acc).experimentalLsp
      = (acc.experimentalLsp || folders.any fun f => (getConfig f.uri).experimentalLsp) := by
  induction folders generalizing acc with
  | nil => simp
  | cons f fs ih =>
    simp only [List.foldl_cons, List.any_cons, ih]
    cases h : (getConfig f.uri).experimentalLsp <;>
      simp [combineConfigStep, h, Bool.or_assoc, Bool.or_comm]

/-- `checkUserLevelConfig` accumulates by conjunction. -/
theorem foldl_combine_checkUserLevelConfig (getConfig : String → DprintExtensionConfig)
    (folders : List WorkspaceFolder) (acc : DprintExtensionConfig) :
    (folders.foldl (fun combined folder => combineConfigStep combined (getConfig folder.uri)) acc).checkUserLevelConfig
      = (acc.checkUserLevelConfig && folders.all fun f => (getConfig f.uri).checkUserLevelConfig) := by
  induction folders generalizing acc with
  | nil => simp
  | cons f fs ih =>
    simp only [List.foldl_cons, List.all_cons, ih]
    cases h : (getConfig f.uri).checkUserLevelConfig <;>
      simp [combineConfigStep, h, Bool.and_assoc, Bool.and_comm]

/-- `pathInfo` keeps the first non-null value. -/
theorem foldl_combine_pathInfo (getConfig : String → DprintExtensionConfig)
    (folders : List WorkspaceFolder) (acc : DprintExtensionConfig) :
    (folders.foldl (fun combined folder => combineConfigStep combined (getConfig folder.uri)) acc).pathInfo
      = (acc.pathInfo <|> folders.findSome? fun f => (getConfig f.uri).pathInfo) := by
  induction folders generalizing acc with
  | nil => cases hacc : acc.pathInfo <;> simp [hacc]
  | cons f fs ih =>
    simp only [List.foldl_cons, List.findSome?_cons, ih]
    cases hacc : acc.pathInfo <;> cases h : (getConfig f.uri).pathInfo <;>
      simp [combineConfigStep, hacc, h]

/-- `configPath` keeps the first non-null value. -/
theorem foldl_combine_configPath (getConfig : String → DprintExtensionConfig)
    (folders : List WorkspaceFolder) (acc : DprintExtensionConfig) :
    (folders.foldl (fun combined folder => combineConfigStep combined (getConfig folder.uri)) acc).configPath
      = (acc.configPath <|> folders.findSome? fun f => (getConfig f.uri).configPath) := by
  induction folders generalizing acc with
  | nil => cases hacc : acc.configPath <;> simp [hacc]
  | cons f fs ih =>
    simp only [List.foldl_cons, List.findSome?_cons, ih]
    cases hacc : acc.configPath <;> cases h : (getConfig f.uri).configPath <;>
      simp [combineConfigStep, hacc, h]

/-- A string-prefix of a string is at most as long. -/
theorem jsStartsWith_length_le (s p : String) (h : jsStartsWith s p = true) :
    p.length ≤ s.length := by
  show p.data.length ≤ s.data.length
  exact ((jsStartsWith_eq_true_iff s p).mp h).length_le

/-- Of two string-prefixes of the same string, the shorter one is a prefix of
the longer one. -/
theorem jsStartsWith_of_le (s p q : String) (hp : jsStartsWith s p = true)
    (hq : jsStartsWith s q = true) (hlen : p.length ≤ q.length) :
    jsStartsWith q p = true := by
  rw [jsStartsWith_eq_true_iff] at hp hq ⊢
  exact List.prefix_of_prefix_length_le hp hq hlen

/-- `pickBestMatch` never discards a previously found match. -/
theorem pickBestMatch_some (doc : String) (b folder : FolderService) :
    ∃ b2, pickBestMatch doc (some b) folder = some b2 := by
  unfold pickBestMatch
  by_cases h1 : jsStartsWith doc folder.rootFsPath = true
  · by_cases h2 : jsStartsWith folder.rootFsPath b.rootFsPath = true
    · exact ⟨folder, by simp [h1, h2]⟩
    · exact ⟨b, by simp [h1, h2]⟩
  · exact ⟨b, by simp [h1]⟩

/-- Once the loop of `#getFolderForUri` holds a match it keeps holding one. -/
theorem foldl_pickBestMatch_some (doc : String) :
    ∀ (fs : List FolderService) (b : FolderService),
      ∃ f, fs.foldl (pickBestMatch doc) (some b) = some f := by
  intro fs
  induction fs with
  | nil => exact fun b => ⟨b, rfl⟩
  | cons g gs ih =>
    intro b
    obtain ⟨b2, hb2⟩ := pickBestMatch_some doc b g
    obtain ⟨f, hf⟩ := ih b2
    exact ⟨f, by rw [List.foldl_cons, hb2, hf]⟩

/-- If the loop of `#getFolderForUri` ends with no match, no folder's root
was a string prefix of the document path. -/
theorem foldl_pickBestMatch_none (doc : String) :
    ∀ fs : List FolderService, fs.foldl (pickBestMatch doc) none = none →
      ∀ g ∈ fs, jsStartsWith doc g.rootFsPath = false := by
  intro fs
  induction fs with
  | nil => intro _ g hg; cases hg
  | cons g gs ih =>
    intro hres h hh
    by_cases hmatch : jsStartsWith doc g.rootFsPath = true
    · exfalso
      rw [List.foldl_cons] at hres
      have hpick : pickBestMatch doc none g = some g := by
        simp [pickBestMatch, hmatch]
      rw [hpick] at hres
      obtain ⟨f, hf⟩ := foldl_pickBestMatch_some doc gs g
      rw [hf] at hres
      cases hres
    · have hgfalse : jsStartsWith doc g.rootFsPath = false := by
        simpa using hmatch
      rw [List.foldl_cons] at hres
      have hpick : pickBestMatch doc none g = none := by
        simp [pickBestMatch, hgfalse]
      rw [hpick] at hres
      rcases List.mem_cons.mp hh with rfl | hh
      · exact hgfalse
      · exact ih hres h hh

/-- If no folder's root is a string prefix of the document path, the loop of
`#getFolderForUri` finds no match. -/
theorem foldl_pickBestMatch_none_of_no_match (doc : String) :
    ∀ fs : List FolderService,
      (∀ g ∈ fs, jsStartsWith doc g.rootFsPath = false) →
      fs.foldl (pickBestMatch doc) none = none := by
  intro fs
  induction fs with
  | nil => intro _; rfl
  | cons g gs ih =>
    intro hall
    rw [List.foldl_cons]
    have hg : jsStartsWith doc g.rootFsPath = false := hall g (List.mem_cons_self g gs)
    have hpick : pickBestMatch doc none g = none := by
      simp [pickBestMatch, hg]
    rw [hpick]
    exact ih fun h hh => hall h (List.mem_cons_of_mem g hh)

/-- Soundness of the loop of `#getFolderForUri`: whatever it returns is a
string-prefix match of maximal root length among the processed folders and
the incoming candidate. -/
theorem foldl_pickBestMatch_sound (doc : String) :
    ∀ (fs : List FolderService) (best : Option FolderService) (f : FolderService),
      (∀ b, best = some b → jsStartsWith doc b.rootFsPath = true) →
      fs.foldl (pickBestMatch doc) best = some f →
      jsStartsWith doc f.rootFsPath = true
      ∧ (∀ g ∈ fs, jsStartsWith doc g.rootFsPath = true →
          g.rootFsPath.length ≤ f.rootFsPath.length)
      ∧ (∀ b, best = some b → b.rootFsPath.length ≤ f.rootFsPath.length) := by
  intro fs
  induction fs with
  | nil =>
    intro best f hbest hres
    simp only [List.foldl_nil] at hres
    subst hres
    refine ⟨hbest f rfl, ?_, ?_⟩
    · intro g hg; cases hg
    · intro b hb; cases hb; exact Nat.le_refl _
  | cons g gs ih =>
    intro best f hbest hres
    rw [List.foldl_cons] at hres
    by_cases hmatch : jsStartsWith doc g.rootFsPath = true
    · cases best with
      | none =>
        have hpick : pickBestMatch doc none g = some g := by
          simp [pickBestMatch, hmatch]
        rw [hpick] at hres
        obtain ⟨hf, hmax, hb⟩ := ih (some g) f (by intro b hb; cases hb; exact hmatch) hres
        refine ⟨hf, ?_, ?_⟩
        · intro h hh hhm
          rcases List.mem_cons.mp hh with rfl | hh
          · exact hb h rfl
          · exact hmax h hh hhm
        · intro b hb2; cases hb2
      | some b =>
        by_cases hbg : jsStartsWith g.rootFsPath b.rootFsPath = true
        · have hpick : pickBestMatch doc (some b) g = some g := by
            simp [pickBestMatch, hmatch, hbg]
          rw [hpick] at hres
          obtain ⟨hf, hmax, hgle⟩ := ih (some g) f (by intro x hx; cases hx; exact hmatch) hres
          refine ⟨hf, ?_, ?_⟩
          · intro h hh hhm
            rcases List.mem_cons.mp hh with rfl | hh
            · exact hgle h rfl
            · exact hmax h hh hhm
          · intro x hx
            cases hx
            exact Nat.le_trans (jsStartsWith_length_le _ _ hbg) (hgle g rfl)
        · have hpick : pickBestMatch doc (some b) g = some b := by
            simp [pickBestMatch, hmatch, hbg]
          rw [hpick] at hres
          obtain ⟨hf, hmax, hble⟩ := ih (some b) f (by intro x hx; cases hx; exact hbest b rfl) hres
          have hglen : g.rootFsPath.length ≤ b.rootFsPath.length := by
            rcases Nat.le_total b.rootFsPath.length g.rootFsPath.length with hle | hle
            · exact absurd (jsStartsWith_of_le doc b.rootFsPath g.rootFsPath
                (hbest b rfl) hmatch hle) hbg
            · exact hle
          refine ⟨hf, ?_, ?_⟩
          · intro h hh hhm
            rcases List.mem_cons.mp hh with rfl | hh
            · exact Nat.le_trans hglen (hble b rfl)
            · exact hmax h hh hhm
          · intro x hx; cases hx; exact hble b rfl
    · have hgfalse : jsStartsWith doc g.rootFsPath = false := by
        simpa using hmatch
      have hpick : pickBestMatch doc best g = best := by
        cases best with
        | none => simp [pickBestMatch, hgfalse]
        | some b => simp [pickBestMatch, hgfalse]
      rw [hpick] at hres
      obtain ⟨hf, hmax, hb⟩ := ih best f hbest hres
      refine ⟨hf, ?_, hb⟩
      intro h hh hhm
      rcases List.mem_cons.mp hh with rfl | hh
      · rw [hgfalse] at hhm; cases hhm
      · exact hmax h hh hhm

/-! # Claims -/

/-- C2: `isUserLevelConfig(c, R)` returns `true` iff no root in `R` is a
string prefix of `c`; with empty `R` it returns `true` for every `c`; and a
config inside root `A` is never classified user-level while any other root of
the same root set is being resolved (the classification only depends on the
full root set). -/
theorem isUserLevelConfig_spec :
    (∀ (c : String) (R : List String),
        isUserLevelConfig c R = true ↔ ∀ r ∈ R, ¬ (r.data <+: c.data))
    ∧ (∀ c : String, isUserLevelConfig c [] = true)
    ∧ (∀ (c : String) (roots : List String) (a : String),
        a ∈ roots → a.data <+: c.data → isUserLevelConfig c roots = false) := by
  refine ⟨?_, ?_, ?_⟩
  · intro c R
    simp [isUserLevelConfig, jsStartsWith_eq_true_iff]
  · intro c
    simp [isUserLevelConfig]
  · intro c roots a ha hpre
    simp only [isUserLevelConfig, Bool.not_eq_false', List.any_eq_true]
    exact ⟨a, ha, (jsStartsWith_eq_true_iff c a).mpr hpre⟩

/-- Witness for C2 at the multi-root regression input: the config inside root
`A` is not user-level in the root set `{A, B}`. -/
theorem isUserLevelConfig_spec_witness :
    isUserLevelConfig "file:///ws/a/dprint.json" ["file:///ws/a", "file:///ws/b"] = false :=
  isUserLevelConfig_spec.2.2 "file:///ws/a/dprint.json"
    ["file:///ws/a", "file:///ws/b"] "file:///ws/a" (by decide) (by decide)

/-- C10: `getCombinedDprintConfig` ORs the `verbose` and `experimentalLsp`
flags across folders, ANDs `checkUserLevelConfig` (default `true`), and takes
the first non-null `pathInfo` and `configPath` in folder order (`none` when
no folder provides one). -/
theorem getCombinedDprintConfig_spec (getConfig : String → DprintExtensionConfig)
    (folders : List WorkspaceFolder) :
    (getCombinedDprintConfig getConfig folders).verbose
        = (folders.any fun f => (getConfig f.uri).verbose)
    ∧ (getCombinedDprintConfig getConfig folders).experimentalLsp
        = (folders.any fun f => (getConfig f.uri).experimentalLsp)
    ∧ (getCombinedDprintConfig getConfig folders).checkUserLevelConfig
        = (folders.all fun f => (getConfig f.uri).checkUserLevelConfig)
    ∧ (getCombinedDprintConfig getConfig folders).pathInfo
        = (folders.findSome? fun f => (getConfig f.uri).pathInfo)
    ∧ (getCombinedDprintConfig getConfig folders).configPath
        = (folders.findSome? fun f => (getConfig f.uri).configPath) := by
  unfold getCombinedDprintConfig
  refine ⟨?_, ?_, ?_, ?_, ?_⟩
  · rw [foldl_combine_verbose]; rfl
  · rw [foldl_combine_experimentalLsp]; rfl
  · rw [foldl_combine_checkUserLevelConfig]; rfl
  · rw [foldl_combine_pathInfo]; rfl
  · rw [foldl_combine_configPath]; rfl

/-- C8: `getUserConfigDirectory` on `win32` joins `APPDATA` with `dprint`
when the variable holds a non-empty value and falls back to
`homedir/AppData/Roaming/dprint` otherwise; on every other platform it joins
`XDG_CONFIG_HOME` with `dprint` when that holds a non-empty value and falls
back to `homedir/.config/dprint`; the home directory is consulted only in the
fallback branches. -/
theorem getUserConfigDirectory_spec (winJoin posixJoin : List String → String)
    (homedir platform : String) (env : UserConfigEnv) :
    (platform = "win32" →
      (∀ s, env.appData = some s → s ≠ "" →
        getUserConfigDirectory winJoin posixJoin homedir platform env = winJoin [s, "dprint"])
      ∧ (env.appData = none ∨ env.appData = some "" →
        getUserConfigDirectory winJoin posixJoin homedir platform env
          = winJoin [homedir, "AppData", "Roaming", "dprint"]))
    ∧ (platform ≠ "win32" →
      (∀ s, env.xdgConfigHome = some s → s ≠ "" →
        getUserConfigDirectory winJoin posixJoin homedir platform env = posixJoin [s, "dprint"])
      ∧ (env.xdgConfigHome = none ∨ env.xdgConfigHome = some "" →
        getUserConfigDirectory winJoin posixJoin homedir platform env
          = posixJoin [homedir, ".config", "dprint"])) := by
  constructor
  · intro hplat
    subst hplat
    constructor
    · intro s hs hne
      simp [getUserConfigDirectory, hs, hne]
    · rintro (hs | hs) <;> simp [getUserConfigDirectory, hs]
  · intro hplat
    have hne : (platform == "win32") = false := by
      simpa using hplat
    constructor
    · intro s hs hsne
      simp [getUserConfigDirectory, hne, hs, hsne]
    · rintro (hs | hs) <;> simp [getUserConfigDirectory, hne, hs]

/-- Witness for C8: the four branches at concrete inputs, with concrete join
functions (separator-interposing concatenation). -/
theorem getUserConfigDirectory_spec_witness :
    getUserConfigDirectory (fun parts => String.intercalate "\\" parts)
        (fun parts => String.intercalate "/" parts)
        "C:\\Users\\u" "win32" ⟨some "C:\\Users\\u\\AppData\\Roaming", none⟩
      = "C:\\Users\\u\\AppData\\Roaming\\dprint"
    ∧ getUserConfigDirectory (fun parts => String.intercalate "\\" parts)
        (fun parts => String.intercalate "/" parts)
        "C:\\Users\\u" "win32" ⟨none, none⟩
      = "C:\\Users\\u\\AppData\\Roaming\\dprint"
    ∧ getUserConfigDirectory (fun parts => String.intercalate "\\" parts)
        (fun parts => String.intercalate "/" parts)
        "/home/u" "linux" ⟨none, some "/custom/config"⟩
      = "/custom/config/dprint"
    ∧ getUserConfigDirectory (fun parts => String.intercalate "\\" parts)
        (fun parts => String.intercalate "/" parts)
        "/home/u" "linux" ⟨none, none⟩
      = "/home/u/.config/dprint" := by
  refine ⟨?_, ?_, ?_, ?_⟩
  · have h := (getUserConfigDirectory_spec (fun parts => String.intercalate "\\" parts)
      (fun parts => String.intercalate "/" parts)
      "C:\\Users\\u" "win32" ⟨some "C:\\Users\\u\\AppData\\Roaming", none⟩).1 rfl
    rw [h.1 "C:\\Users\\u\\AppData\\Roaming" rfl (by decide)]
    rfl
  · have h := (getUserConfigDirectory_spec (fun parts => String.intercalate "\\" parts)
      (fun parts => String.intercalate "/" parts)
      "C:\\Users\\u" "win32" ⟨none, none⟩).1 rfl
    rw [h.2 (Or.inl rfl)]
    rfl
  · have h := (getUserConfigDirectory_spec (fun parts => String.intercalate "\\" parts)
      (fun parts => String.intercalate "/" parts)
      "/home/u" "linux" ⟨none, some "/custom/config"⟩).2 (by decide)
    rw [h.1 "/custom/config" rfl (by decide)]
    rfl
  · have h := (getUserConfigDirectory_spec (fun parts => String.intercalate "\\" parts)
      (fun parts => String.intercalate "/" parts)
      "/home/u" "linux" ⟨none, none⟩).2 (by decide)
    rw [h.2 (Or.inl rfl)]
    rfl

/-! Concrete folders used by the routing witnesses. -/

/-- A binding rooted at `/ws/a`. -/
def folderWsA : FolderService :=
  { workspaceFolderUri := some "/ws/a"
    configUri := some "/ws/a/dprint.json"
    useConfigDirAsCwd := false }

/-- A binding rooted at `/ws/a/b`. -/
def folderWsAB : FolderService :=
  { workspaceFolderUri := some "/ws/a/b"
    configUri := some "/ws/a/b/dprint.json"
    useConfigDirAsCwd := false }

/-- The synthetic global binding used in the fallback witness. -/
def folderGlobal : FolderService :=
  { workspaceFolderUri := some "/ws/a"
    configUri := some "/home/u/.config/dprint/dprint.json"
    useConfigDirAsCwd := true }

/-- C3: when some bound folder's root is a string prefix of the document's
path, `#getFolderForUri` resolves to a bound folder whose root is a prefix of
the document's path of maximal length among all bound prefixes — the global
fallback is not consulted. -/
theorem getFolderForUri_longest_prefix_match (folders : List FolderService)
    (globalFolder : Option FolderService) (docFsPath : String) (g : FolderService)
    (hg : g ∈ folders) (hmatch : g.rootFsPath.data <+: docFsPath.data) :
    ∃ f, bestMatchFolder folders docFsPath = some f
      ∧ getFolderForUri folders globalFolder docFsPath = some f
      ∧ f.rootFsPath.data <+: docFsPath.data
      ∧ ∀ h ∈ folders, h.rootFsPath.data <+: docFsPath.data →
          h.rootFsPath.length ≤ f.rootFsPath.length := by
  have hmatch2 : jsStartsWith docFsPath g.rootFsPath = true :=
    (jsStartsWith_eq_true_iff docFsPath g.rootFsPath).mpr hmatch
  cases hres : bestMatchFolder folders docFsPath with
  | none =>
    exfalso
    have := foldl_pickBestMatch_none docFsPath folders hres g hg
    rw [hmatch2] at this
    cases this
  | some f =>
    obtain ⟨hf, hmax, _⟩ :=
      foldl_pickBestMatch_sound docFsPath folders none f (by intro b hb; cases hb) hres
    refine ⟨f, rfl, ?_, ?_, ?_⟩
    · unfold getFolderForUri
      rw [hres]
    · exact (jsStartsWith_eq_true_iff docFsPath f.rootFsPath).mp hf
    · intro h hh hhm
      exact hmax h hh ((jsStartsWith_eq_true_iff docFsPath h.rootFsPath).mpr hhm)

/-- Witness for C3 at the spec's example: with bindings for `/ws/a` and
`/ws/a/b`, the document `/ws/a/b/x.json` resolves to the `/ws/a/b` binding,
never the `/ws/a` one. -/
theorem getFolderForUri_longest_prefix_match_witness :
    (∃ f, bestMatchFolder [folderWsA, folderWsAB] "/ws/a/b/x.json" = some f
      ∧ getFolderForUri [folderWsA, folderWsAB] none "/ws/a/b/x.json" = some f
      ∧ f.rootFsPath.data <+: "/ws/a/b/x.json".data
      ∧ ∀ h ∈ [folderWsA, folderWsAB], h.rootFsPath.data <+: "/ws/a/b/x.json".data →
          h.rootFsPath.length ≤ f.rootFsPath.length)
    ∧ getFolderForUri [folderWsA, folderWsAB] none "/ws/a/b/x.json" = some folderWsAB :=
  ⟨getFolderForUri_longest_prefix_match [folderWsA, folderWsAB] none "/ws/a/b/x.json"
      folderWsAB (by decide) (by decide),
    by decide⟩

/-- C4: when no bound folder's root is a string prefix of the document's
path, `#getFolderForUri` yields the global folder — the global binding when
one exists, and `none` ("no formatter") when none does. -/
theorem getFolderForUri_fallback (folders : List FolderService)
    (globalFolder : Option FolderService) (docFsPath : String)
    (hnone : ∀ g ∈ folders, ¬ (g.rootFsPath.data <+: docFsPath.data)) :
    getFolderForUri folders globalFolder docFsPath = globalFolder := by
  have hres : bestMatchFolder folders docFsPath = none := by
    apply foldl_pickBestMatch_none_of_no_match
    intro g hg
    have := hnone g hg
    cases hcase : jsStartsWith docFsPath g.rootFsPath with
    | false => rfl
    | true => exact absurd ((jsStartsWith_eq_true_iff _ _).mp hcase) this
  unfold getFolderForUri
  rw [hres]

/-- Witness for C4 at a document outside the only bound root, once with a
global binding present and once without. -/
theorem getFolderForUri_fallback_witness :
    getFolderForUri [folderWsA] (some folderGlobal) "/home/u/Downloads/x.json"
        = some folderGlobal
    ∧ getFolderForUri [folderWsA] none "/home/u/Downloads/x.json" = none :=
  ⟨getFolderForUri_fallback [folderWsA] (some folderGlobal) "/home/u/Downloads/x.json"
      (by decide),
    getFolderForUri_fallback [folderWsA] none "/home/u/Downloads/x.json" (by decide)⟩

/-- C9: the folder match in `#getFolderForUri` is a plain character-string
prefix test with no path-separator boundary check: a bound folder whose root
path merely begins the document's path is taken as the match. -/
theorem getFolderForUri_no_boundary_check (f : FolderService) (docFsPath : String)
    (h : jsStartsWith docFsPath f.rootFsPath = true) :
    getFolderForUri [f] none docFsPath = some f := by
  unfold getFolderForUri bestMatchFolder
  simp [pickBestMatch, h]

/-- Witness for C9 at the problem input: the binding for `/ws/a` matches the
document `/ws/ab/x.json` even though `/ws/ab` is not inside the directory
`/ws/a` (the separator-checked prefix `/ws/a/` does not match). -/
theorem getFolderForUri_no_boundary_check_witness :
    getFolderForUri [folderWsA] none "/ws/ab/x.json" = some folderWsA
    ∧ jsStartsWith "/ws/ab/x.json" "/ws/a/" = false :=
  ⟨getFolderForUri_no_boundary_check folderWsA "/ws/ab/x.json" (by decide), by decide⟩

/-- The result record of a completed `initializeFolders` run (`none` when the
run failed with `ObjectDisposedError`). -/
def initResultOf (env : InitEnv) (s : WorkspaceState) : Option InitResult :=
  match initializeFolders env s with
  | .ok r => some r
  | .error _ => none

/-- A previous-generation binding present before re-initialization. -/
def oldFolderC1 : FolderService :=
  { workspaceFolderUri := some "file:///old"
    configUri := some "file:///old/dprint.json"
    useConfigDirAsCwd := false }

/-- A service state holding one previous-generation binding. -/
def stateWithOldGen : WorkspaceState := ⟨[oldFolderC1], none, false⟩

/-- A one-folder workspace whose single discovered config lies inside the
folder. -/
def envOneFolder : InitEnv :=
  { workspaceFolders := some [⟨"file:///ws"⟩]
    resolvedConfigPath := fun _ => none
    configFiles := ["file:///ws/dprint.json"]
    ancestorDirsContainConfigFile := fun _ => false
    initializeOk := fun _ => true
    editorInfo := fun _ => none }

/-- Counterexample to C1: on a concrete re-initialization that replaces an
existing generation, the run completes, yet the previous generation's
disposal does not come after the new generation's construction and
initialization — the trace starts with the disposal. -/
theorem initializeFolders_atomic_swap_cex :
    (initResultOf envOneFolder stateWithOldGen).map
        (fun r => disposalsAfterNewGeneration r.events) = some false := by
  rfl

/-- Construction and initialization events are create-or-init events. -/
theorem all_createOrInit_append (xs ys : List FolderService) :
    ((xs.map InitEvent.createFolder) ++ (ys.map InitEvent.initFolder)).all
      InitEvent.isCreateOrInit = true := by
  simp only [List.all_append, Bool.and_eq_true, List.all_eq_true]
  constructor <;> intro e he <;> obtain ⟨f, _, rfl⟩ := List.mem_map.mp he <;> rfl

/-- C1 amended: `initializeFolders` disposes the previous generation's
instances first — `#clearFolders()` runs at entry, so every disposal event
precedes every construction and initialization event, and re-initialization
does pass through a window in which neither the old nor the new generation
is bound. -/
theorem initializeFolders_disposes_first (env : InitEnv) (s : WorkspaceState)
    (hs : s.disposed = false) :
    ∃ r rest, initializeFolders env s = .ok r
      ∧ r.events = clearFoldersEvents s ++ rest
      ∧ rest.all InitEvent.isCreateOrInit = true := by
  cases hw : env.workspaceFolders with
  | none =>
    simp only [initializeFolders, hs, hw, Bool.false_eq_true, if_false]
    exact ⟨_, [], rfl, by simp, rfl⟩
  | some l =>
    simp only [initializeFolders, hs, hw, Bool.false_eq_true, if_false]
    exact ⟨_, _, rfl, List.append_assoc _ _ _, all_createOrInit_append _ _⟩

/-- Witness for the amended C1 at the concrete re-initialization of
`stateWithOldGen`. -/
theorem initializeFolders_disposes_first_witness :
    ∃ r rest, initializeFolders envOneFolder stateWithOldGen = .ok r
      ∧ r.events = clearFoldersEvents stateWithOldGen ++ rest
      ∧ rest.all InitEvent.isCreateOrInit = true :=
  initializeFolders_disposes_first envOneFolder stateWithOldGen rfl

/-- C5: after a completed `initializeFolders` pass over a non-empty folder
list, the global folder exists iff some discovered config file is user-level
(outside every workspace folder root); when it exists it carries the first
user-level candidate as its config URI, has `useConfigDirAsCwd = true`, and
is anchored on one of the existing workspace folder roots. -/
theorem globalFolder_iff_userLevelConfig (env : InitEnv) (s : WorkspaceState)
    (l : List WorkspaceFolder) (hs : s.disposed = false)
    (hw : env.workspaceFolders = some l) (hne : l ≠ []) :
    ∃ r, initializeFolders env s = .ok r
      ∧ (r.state.globalFolder.isSome = true ↔
          env.configFiles.filter (fun c => isUserLevelConfig c (l.map (·.uri))) ≠ [])
      ∧ ∀ g, r.state.globalFolder = some g →
          g.configUri
              = (env.configFiles.filter fun c => isUserLevelConfig c (l.map (·.uri))).head?
            ∧ g.useConfigDirAsCwd = true
            ∧ ∃ w ∈ l, g.workspaceFolderUri = some w.uri := by
  obtain ⟨w, ws, rfl⟩ : ∃ w ws, l = w :: ws := by
    cases l with
    | nil => exact absurd rfl hne
    | cons w ws => exact ⟨w, ws, rfl⟩
  unfold initializeFolders
  rw [hs, hw]
  simp only [Bool.false_eq_true, if_false]
  refine ⟨_, rfl, ?_, ?_⟩
  · cases hfil : (env.configFiles.filter
        fun c => isUserLevelConfig c ((w :: ws).map (·.uri))) with
    | nil => simp [hfil]
    | cons u0 us => simp [hfil]
  · intro g hg
    cases hfil : (env.configFiles.filter
        fun c => isUserLevelConfig c ((w :: ws).map (·.uri))) with
    | nil => rw [hfil] at hg; cases hg
    | cons u0 us =>
      rw [hfil] at hg
      cases hg
      refine ⟨by simp [hfil], rfl, w, List.mem_cons_self w ws, by simp⟩

/-- Witness for C5: a single-folder workspace with one config discovered in
the user config directory, outside the folder root. -/
theorem globalFolder_iff_userLevelConfig_witness :
    ∃ r, initializeFolders
          { workspaceFolders := some [⟨"file:///ws"⟩]
            resolvedConfigPath := fun _ => none
            configFiles := ["file:///home/u/.config/dprint/dprint.json"]
            ancestorDirsContainConfigFile := fun _ => false
            initializeOk := fun _ => true
            editorInfo := fun _ => none } ⟨[], none, false⟩ = .ok r
      ∧ (r.state.globalFolder.isSome = true ↔
          (["file:///home/u/.config/dprint/dprint.json"].filter
            fun c => isUserLevelConfig c (([⟨"file:///ws"⟩] : List WorkspaceFolder).map (·.uri))) ≠ [])
      ∧ ∀ g, r.state.globalFolder = some g →
          g.configUri
              = (["file:///home/u/.config/dprint/dprint.json"].filter
                  fun c => isUserLevelConfig c (([⟨"file:///ws"⟩] : List WorkspaceFolder).map (·.uri))).head?
            ∧ g.useConfigDirAsCwd = true
            ∧ ∃ w ∈ ([⟨"file:///ws"⟩] : List WorkspaceFolder), g.workspaceFolderUri = some w.uri :=
  globalFolder_iff_userLevelConfig _ _ [⟨"file:///ws"⟩] rfl rfl (by simp)

/-- Counterexample to C6: on a disposed service, `provideDocumentFormattingEdits`
does not fail with `ObjectDisposedError`; it resolves to "no formatter". -/
theorem disposed_operations_cex :
    provideDocumentFormattingEdits (disposeService ⟨[folderWsA], some folderGlobal, false⟩).1
        "/ws/a/x.json" = Except.ok none
    ∧ provideDocumentFormattingEdits (disposeService ⟨[folderWsA], some folderGlobal, false⟩).1
        "/ws/a/x.json" ≠ Except.error DprintError.objectDisposed := by
  refine ⟨rfl, ?_⟩
  intro h
  rw [show provideDocumentFormattingEdits
      (disposeService ⟨[folderWsA], some folderGlobal, false⟩).1 "/ws/a/x.json"
      = Except.ok none from rfl] at h
  simp at h

/-- C6 amended: after `dispose()`, `initializeFolders` fails with
`ObjectDisposedError`, while `provideDocumentFormattingEdits` resolves to no
formatter and `getEditorServicePid` to no pid, both without throwing; a
second `dispose()` throws nothing, emits no further `FolderService` disposal
(the folder list was emptied and the global folder cleared by the first),
and leaves the service disposed. -/
theorem disposed_service_behaviour (s : WorkspaceState) (env : InitEnv)
    (pidOf : FolderService → Option Nat) (docFsPath : String) :
    initializeFolders env (disposeService s).1 = .error .objectDisposed
    ∧ provideDocumentFormattingEdits (disposeService s).1 docFsPath = .ok none
    ∧ getEditorServicePid pidOf (disposeService s).1 = .ok none
    ∧ (disposeService (disposeService s).1).2 = []
    ∧ (disposeService (disposeService s).1).1.disposed = true :=
  ⟨rfl, rfl, rfl, rfl, rfl⟩

/-- C7: a folder whose per-folder `configPath` setting resolved to a URI is
bound to exactly that URI — the loop body contributes precisely the one
explicit binding, skipping discovered workspace configs, the user-level
fallback and the ancestor-directory fallback — and for such a folder a full
`initializeFolders` pass installs exactly that binding. -/
theorem explicitConfigPath_wins (env : InitEnv) (userLevelConfigs : List String)
    (acc : List FolderService) (folder : WorkspaceFolder) (u : String)
    (h : env.resolvedConfigPath folder.uri = some u) :
    processWorkspaceFolder env userLevelConfigs acc folder
        = acc ++ [{ workspaceFolderUri := some folder.uri
                    configUri := some u
                    useConfigDirAsCwd := false }]
    ∧ ∀ s : WorkspaceState, s.disposed = false → env.workspaceFolders = some [folder] →
        ∃ r, initializeFolders env s = .ok r
          ∧ r.state.folders = [{ workspaceFolderUri := some folder.uri
                                 configUri := some u
                                 useConfigDirAsCwd := false }] := by
  have hbody : ∀ ul acc2, processWorkspaceFolder env ul acc2 folder
      = acc2 ++ [{ workspaceFolderUri := some folder.uri
                   configUri := some u
                   useConfigDirAsCwd := false }] := by
    intro ul acc2
    unfold processWorkspaceFolder
    rw [h]
  refine ⟨hbody userLevelConfigs acc, ?_⟩
  intro s hs hw
  unfold initializeFolders
  rw [hs, hw]
  simp only [Bool.false_eq_true, if_false]
  refine ⟨_, rfl, ?_⟩
  simp only [List.foldl_cons, List.foldl_nil]
  rw [hbody _ []]
  rfl

/-- Witness for C7: the explicit `configPath` `/tmp/custom.json` wins over a
discovered workspace config. -/
theorem explicitConfigPath_wins_witness :
    ∃ r, initializeFolders
          { workspaceFolders := some [⟨"file:///ws"⟩]
            resolvedConfigPath := fun uri =>
              if uri == "file:///ws" then some "file:///tmp/custom.json" else none
            configFiles := ["file:///ws/dprint.json"]
            ancestorDirsContainConfigFile := fun _ => false
            initializeOk := fun _ => true
            editorInfo := fun _ => none } ⟨[], none, false⟩ = .ok r
      ∧ r.state.folders = [{ workspaceFolderUri := some "file:///ws"
                             configUri := some "file:///tmp/custom.json"
                             useConfigDirAsCwd := false }] :=
  (explicitConfigPath_wins _ [] [] ⟨"file:///ws"⟩ "file:///tmp/custom.json"
      (by decide)).2 ⟨[], none, false⟩ rfl rfl

end Dprint
